import Mathlib

/-!
Verification of the TPFA (two-point flux approximation) discretizer of
`porepy/numerics/fv/tpfa.py` against its natural-language specification.

The embedding works over `ℚ` (the source computes with IEEE doubles; all the
algebraic structure of the code is exact, so we model the arithmetic exactly).
The one genuinely real-valued primitive, the square root hidden inside
`np.linalg.norm` (used only by the optional "Aavatsmark" transmissibility
policy), is modelled as an explicit function parameter `sqrtFn : ℚ → ℚ`:
every statement about that policy is relative to the square-root primitive,
exactly as the code is relative to the libm implementation.

Sparse scipy matrices are modelled as Mathlib matrices over `Fin`-indexed
types; COO/CSR triplet construction (which sums duplicate entries) is the
function `cooMat`.
-/

set_option allowUnsafeReducibility true in
attribute [semireducible] Rat.add Rat.mul Rat.inv Rat.div Rat.sub Rat.neg

namespace Porepy

/-- Spatial vectors (columns of `face_normals`, `face_centers`, ...). -/
abbrev Vec := List ℚ

/-- Dot product of two spatial vectors, `(u * v).sum(axis=0)`. -/
def dotV (u v : Vec) : ℚ := (List.zipWith (· * ·) u v).sum

/-- Squared Euclidean norm, `np.power(v, 2).sum(axis=0)`. -/
def normSq (v : Vec) : ℚ := dotV v v

/-- Componentwise difference of spatial vectors. -/
def subV (u v : Vec) : Vec := List.zipWith (· - ·) u v

/-- Scale a spatial vector by a scalar. -/
def smulV (a : ℚ) (v : Vec) : Vec := v.map (fun x => a * x)

/-- `scipy.sparse.coo_matrix((w, (I, J)), (m, n))`: a sparse matrix built from
triplets `(row, col, weight)`; duplicate positions are summed (scipy's
`sum_duplicates` semantics, which `csr_matrix` conversion applies). -/
def cooMat (m n : ℕ) (es : List (ℕ × ℕ × ℚ)) : Matrix (Fin m) (Fin n) ℚ :=
  Matrix.of fun i j =>
    ((es.filter fun e => e.1 == i.val && e.2.1 == j.val).map fun e => e.2.2).sum

/-- A grid (`porepy.grids.grid.Grid`), the read-only geometry/topology input.
`cellFaces` is the triple list `(fi, ci, sgn) = sps.find(g.cell_faces)`,
in find order. -/
structure Grid where
  dim : ℕ
  numCells : ℕ
  numFaces : ℕ
  cellFaces : List (ℕ × ℕ × ℚ)
  faceNormals : ℕ → Vec
  faceCenters : ℕ → Vec
  cellCenters : ℕ → Vec
  faceAreas : ℕ → ℚ
  boundaryFaces : List ℕ

/-- `g.cell_faces` viewed as a sparse `num_faces × num_cells` matrix. -/
def Grid.cellFacesMat (g : Grid) : Matrix (Fin g.numFaces) (Fin g.numCells) ℚ :=
  cooMat g.numFaces g.numCells g.cellFaces

/-- Modelled from the spec: `fvutils.scalar_divergence` (the external
"divergence builder") "maps a grid's cell/face signed incidence into a sparse
divergence operator (faces → cells)"; per the code of `Tpfa.rhs` this is
`g.cell_faces.T`. -/
def scalarDivergence (g : Grid) : Matrix (Fin g.numCells) (Fin g.numFaces) ℚ :=
  g.cellFacesMat.transpose

/-- The `param` object of the data dictionary: permeability tensor accessor
(`k.perm[:, :, c]` as a list of rows), boundary-condition labels, boundary
values, and the optional per-cell aperture. -/
structure Param where
  perm : ℕ → List Vec
  isDir : ℕ → Bool
  isNeu : ℕ → Bool
  bcVal : ℕ → ℚ
  aperture : Option (ℕ → ℚ)

/-- Modelled from the spec: the external `param.get_aperture()` accessor's
result as actually consumed by the coupling engines ("absence implies
aperture 1", spec §3). -/
def Param.getAperture (p : Param) : ℕ → ℚ :=
  match p.aperture with
  | some a => a
  | none => fun _ => 1

/-- A value stored in the mutable data dictionary: either a sparse matrix of
some shape or a plain scalar (the 0-dimensional branch stores the scalar `0`
under `bound_flux`). -/
inductive DVal where
  | mat : (m n : ℕ) → Matrix (Fin m) (Fin n) ℚ → DVal
  | scal : ℚ → DVal

/-- Read a stored value as a matrix of the shape the consumer needs
(a shape mismatch or a scalar where a matrix is needed is a runtime failure
in the source). -/
def DVal.asMat : DVal → (m n : ℕ) → Option (Matrix (Fin m) (Fin n) ℚ)
  | .mat m' n' M, m, n =>
    if h : m' = m ∧ n' = n then
      some ((Matrix.reindex (finCongr h.1) (finCongr h.2)) M)
    else none
  | .scal _, _, _ => none

/-- The mutable per-grid data dictionary, restricted to the keys this module
reads and writes.  `none` models an absent key (a read raises `KeyError`). -/
structure FlowRecord where
  param : Param
  aav : Option Bool
  flux? : Option DVal
  boundFlux? : Option DVal
  boundPressureCell? : Option DVal
  boundPressureFace? : Option DVal

namespace Tpfa

/-- `is_not_active` per face: `faces=None` means all faces active; otherwise
only the listed faces are active (lines 186-192). -/
def isNotActive (faces : Option (List ℕ)) (f : ℕ) : Bool :=
  match faces with
  | none => false
  | some l => !(l.contains f)

/-- Half-transmissibility of one `(face, cell, sign)` incidence (the
`t_face` entry of `Tpfa.discretize`): scaled signed normal, permeability
contraction `nk`, then either the projection on the face-to-cell displacement
divided by its squared length (default), or the ratio of Euclidean norms
(Aavatsmark policy), where `sqrtFn` models the square root of
`np.linalg.norm`. -/
def t_face (sqrtFn : ℚ → ℚ) (g : Grid) (p : Param) (aav : Bool)
    (e : ℕ × ℕ × ℚ) : ℚ :=
  let f := e.1
  let c := e.2.1
  let s := e.2.2
  let n0 : Vec :=
    match p.aperture with
    | none => g.faceNormals f
    | some ap => smulV (ap c) (g.faceNormals f)
  let n : Vec := smulV s n0
  let fc_cc : Vec := subV (g.faceCenters f) (g.cellCenters c)
  let nk : Vec := (p.perm c).map (fun row => dotV row n)
  if aav then sqrtFn (normSq nk) / sqrtFn (normSq fc_cc)
  else dotV nk fc_cc / normSq fc_cc

/-- The incidences of face `f` in the triple list (the entries `fi == f`). -/
def faceIncidences (g : Grid) (f : ℕ) : List (ℕ × ℕ × ℚ) :=
  g.cellFaces.filter fun e => e.1 == f

/-- The harmonic full transmissibility
`t = 1 / np.bincount(fi, weights=1/t_face)` at face `f`. -/
def t (sqrtFn : ℚ → ℚ) (g : Grid) (p : Param) (aav : Bool) (f : ℕ) : ℚ :=
  1 / ((faceIncidences g f).map fun e => 1 / t_face sqrtFn g p aav e).sum

/-- `sgn_full = np.bincount(fi, sgn)` (computed by the source, never used). -/
def sgn_full (g : Grid) (f : ℕ) : ℚ :=
  ((faceIncidences g f).map fun e => e.2.2).sum

/-- The boundary coefficient `t_b`: `1` on Neumann faces, `-t` on Dirichlet
faces, `0` elsewhere (the source assigns Dirichlet first, so the Neumann
assignment wins on a face carrying both labels). -/
def t_b (sqrtFn : ℚ → ℚ) (g : Grid) (p : Param) (aav : Bool) (f : ℕ) : ℚ :=
  if p.isNeu f then 1
  else if p.isDir f then -t sqrtFn g p aav f
  else 0

/-- The transmissibility after `t[np.logical_or(bnd.is_neu, is_not_active)] = 0`. -/
def tZeroed (sqrtFn : ℚ → ℚ) (g : Grid) (p : Param) (aav : Bool)
    (faces : Option (List ℕ)) (f : ℕ) : ℚ :=
  if p.isNeu f || isNotActive faces f then 0 else t sqrtFn g p aav f

/-- The flux operator `sps.coo_matrix((t[fi] * sgn, (fi, ci)))`. -/
def fluxMat (sqrtFn : ℚ → ℚ) (g : Grid) (p : Param) (aav : Bool)
    (faces : Option (List ℕ)) : Matrix (Fin g.numFaces) (Fin g.numCells) ℚ :=
  cooMat g.numFaces g.numCells
    (g.cellFaces.map fun e => (e.1, e.2.1, tZeroed sqrtFn g p aav faces e.1 * e.2.2))

/-- The sign of a boundary face's single `(face, cell)` incidence: the
`bndr_sgn` extraction of lines 243-245 (slicing `cell_faces` at the boundary
rows, then re-sorting `.data` by row index), which for a face with exactly one
adjacent cell yields that incidence's sign. -/
def boundarySgn (g : Grid) (f : ℕ) : ℚ :=
  match g.cellFaces.find? (fun e => e.1 == f) with
  | some e => e.2.2
  | none => 0

/-- The boundary-flux operator
`sps.coo_matrix((t_b * bndr_sgn, (bndr_ind, bndr_ind)), (nf, nf))`. -/
def boundFluxMat (sqrtFn : ℚ → ℚ) (g : Grid) (p : Param) (aav : Bool) :
    Matrix (Fin g.numFaces) (Fin g.numFaces) ℚ :=
  cooMat g.numFaces g.numFaces
    (g.boundaryFaces.map fun b => (b, b, t_b sqrtFn g p aav b * boundarySgn g b))

/-- `bound_pressure_cell = sps.coo_matrix((v_cell, (fi, ci)), (nf, nc))`
with `v_cell[bnd.is_neu[fi]] = 1`. -/
def boundPressureCellMat (g : Grid) (p : Param) :
    Matrix (Fin g.numFaces) (Fin g.numCells) ℚ :=
  cooMat g.numFaces g.numCells
    (g.cellFaces.map fun e => (e.1, e.2.1, if p.isNeu e.1 then 1 else 0))

/-- The diagonal of `bound_pressure_face`: `v_face[is_dir] = 1` then
`v_face[is_neu] = -1/t_full[is_neu]` (Neumann wins), `0` elsewhere. -/
def v_face (sqrtFn : ℚ → ℚ) (g : Grid) (p : Param) (aav : Bool) (f : ℕ) : ℚ :=
  if p.isNeu f then -(1 / t sqrtFn g p aav f)
  else if p.isDir f then 1
  else 0

/-- `bound_pressure_face = sps.dia_matrix((v_face, 0), (nf, nf))`. -/
def boundPressureFaceMat (sqrtFn : ℚ → ℚ) (g : Grid) (p : Param) (aav : Bool) :
    Matrix (Fin g.numFaces) (Fin g.numFaces) ℚ :=
  Matrix.diagonal fun i => v_face sqrtFn g p aav i.val

/-- `Tpfa.discretize(g, data, faces)`: populates the data record.  The
0-dimensional branch stores a 1×1 zero sparse matrix under `flux` and the
scalar `0` under `bound_flux` and returns at once; the general branch stores
the four derived operators. -/
def discretize (sqrtFn : ℚ → ℚ) (g : Grid) (r : FlowRecord)
    (faces : Option (List ℕ)) : FlowRecord :=
  let p := r.param
  if g.dim = 0 then
    { r with flux? := some (.mat 1 1 0), boundFlux? := some (.scal 0) }
  else
    let aav := (r.aav).getD false
    { r with
      flux? := some (.mat g.numFaces g.numCells (fluxMat sqrtFn g p aav faces))
      boundFlux? := some (.mat g.numFaces g.numFaces (boundFluxMat sqrtFn g p aav))
      boundPressureCell? := some (.mat g.numFaces g.numCells (boundPressureCellMat g p))
      boundPressureFace? := some (.mat g.numFaces g.numFaces (boundPressureFaceMat sqrtFn g p aav)) }

/-- `Tpfa.rhs(g, bound_flux, bc_val) = -div * bound_flux * bc_val` with
`div = g.cell_faces.T`. -/
def rhs (g : Grid) (bound_flux : Matrix (Fin g.numFaces) (Fin g.numFaces) ℚ)
    (bc_val : Fin g.numFaces → ℚ) : Fin g.numCells → ℚ :=
  let div := g.cellFacesMat.transpose
  (-(div * bound_flux)).mulVec bc_val

/-- `Tpfa.matrix_rhs(g, data, faces, discretize)`: optionally discretizes,
then assembles `M = div * data['flux']` and the boundary right-hand side.
A missing record key (`KeyError`) or a stored value of the wrong shape is a
runtime failure, modelled by `none`. -/
def matrix_rhs (sqrtFn : ℚ → ℚ) (g : Grid) (r : FlowRecord)
    (doDiscretize : Bool) :
    Option (Matrix (Fin g.numCells) (Fin g.numCells) ℚ × (Fin g.numCells → ℚ)) := do
  let div := scalarDivergence g
  let r' := if doDiscretize then discretize sqrtFn g r none else r
  let fluxV ← r'.flux?
  let flux ← fluxV.asMat g.numFaces g.numCells
  let M := div * flux
  let boundFluxV ← r'.boundFlux?
  let bound_flux ← boundFluxV.asMat g.numFaces g.numFaces
  let bc_val : Fin g.numFaces → ℚ := fun f => r'.param.bcVal f.val
  some (M, rhs g bound_flux bc_val)

end Tpfa

/-- Sign function, `np.sign` (used by the mortar coupling's orientation
computation). -/
def sgnQ (q : ℚ) : ℚ := if 0 < q then 1 else if q < 0 then -1 else 0

/-- The first `(cell, sign)` incidence of face `f` in find order: the
`np.unique(faces, return_index=True)[1]` extraction used by both coupling
engines (lines 316-318 and 418-421). -/
def firstIncidence (g : Grid) (f : ℕ) : ℕ × ℚ :=
  match g.cellFaces.find? (fun e => e.1 == f) with
  | some e => (e.2.1, e.2.2)
  | none => (0, 0)

/-- The mortar grid: cell count, cell volumes, and the two averaging
projections (entries of `high_to_mortar_avg` and `low_to_mortar_avg`). -/
structure MortarGrid where
  numCells : ℕ
  cellVolumes : ℕ → ℚ
  hatPf : ℕ → ℕ → ℚ
  checkPf : ℕ → ℕ → ℚ

/-- The interface data dictionary (`data_edge`): mortar grid, normal
permeability `kn` (per mortar cell; a scalar broadcast is the constant
function), the `face_cells` incidence as `(cell_l, face_h)` pairs in find
order (DFN case), and the optional Aavatsmark flag. -/
structure EdgeData where
  mortarGrid : MortarGrid
  kn : ℕ → ℚ
  faceCells : List (ℕ × ℕ)
  aav : Option Bool

/-- The mortar-to-high-faces averaging projection `mg.high_to_mortar_avg()`
as a typed matrix. -/
def hatPMat (gH : Grid) (mg : MortarGrid) :
    Matrix (Fin mg.numCells) (Fin gH.numFaces) ℚ :=
  Matrix.of fun i j => mg.hatPf i.val j.val

/-- The mortar-to-low-cells averaging projection `mg.low_to_mortar_avg()`
as a typed matrix. -/
def checkPMat (gL : Grid) (mg : MortarGrid) :
    Matrix (Fin mg.numCells) (Fin gL.numCells) ℚ :=
  Matrix.of fun i j => mg.checkPf i.val j.val

/-- `aperture_h[cells_h]`: the aperture of the first adjacent cell of each
higher-dimensional face. -/
def apertureHVec (gH : Grid) (p : Param) : ℕ → ℚ :=
  fun f => p.getAperture (firstIncidence gH f).1

/-- A 3×3 block matrix over (high-dim cells, low-dim cells, mortar cells). -/
structure Blocks3 (n0 n1 n2 : ℕ) where
  b00 : Matrix (Fin n0) (Fin n0) ℚ
  b01 : Matrix (Fin n0) (Fin n1) ℚ
  b02 : Matrix (Fin n0) (Fin n2) ℚ
  b10 : Matrix (Fin n1) (Fin n0) ℚ
  b11 : Matrix (Fin n1) (Fin n1) ℚ
  b12 : Matrix (Fin n1) (Fin n2) ℚ
  b20 : Matrix (Fin n2) (Fin n0) ℚ
  b21 : Matrix (Fin n2) (Fin n1) ℚ
  b22 : Matrix (Fin n2) (Fin n2) ℚ

/-- The keys `TpfaCoupling.matrix_rhs` writes back into the interface
record. -/
structure CouplingWrites (nch ncl nfh nm : ℕ) where
  mortar_to_bc : Matrix (Fin nfh) (Fin nm) ℚ
  jump : Matrix (Fin ncl) (Fin nm) ℚ
  hat_P_to_mortar : Matrix (Fin nm) (Fin nch) ℚ
  check_P_to_mortar : Matrix (Fin nm) (Fin ncl) ℚ
  mortar_weight : Matrix (Fin nm) (Fin nm) ℚ

namespace TpfaCoupling

/-- `TpfaCoupling.matrix_rhs(matrix, g_h, g_l, data_h, data_l, data_edge)`:
assembles the mortar coupling blocks, augments the previously assembled block
matrix, and writes the derived operators into the interface record.  Missing
record keys (`bound_pressure_cell`, `bound_pressure_face`, `bound_flux`) or
shape mismatches are runtime failures, modelled by `none`. -/
def matrix_rhs (gH gL : Grid) (dataEdge : EdgeData)
    (matrix : Blocks3 gH.numCells gL.numCells dataEdge.mortarGrid.numCells)
    (dataH : FlowRecord) (_dataL : FlowRecord) :
    Option (Blocks3 gH.numCells gL.numCells dataEdge.mortarGrid.numCells ×
      CouplingWrites gH.numCells gL.numCells gH.numFaces
        dataEdge.mortarGrid.numCells) := do
  let mg := dataEdge.mortarGrid
  let bpcV ← dataH.boundPressureCell?
  let bound_pressure_cc_h ← bpcV.asMat gH.numFaces gH.numCells
  let bpfV ← dataH.boundPressureFace?
  let bound_pressure_face_h ← bpfV.asMat gH.numFaces gH.numFaces
  -- cells_h per face of the higher grid (unique-first extraction)
  let cells_h : ℕ → ℕ := fun f => (firstIncidence gH f).1
  let bfV ← dataH.boundFlux?
  let bound_flux_h ← bfV.asMat gH.numFaces gH.numFaces
  let div_h := scalarDivergence gH
  let hat_P : Matrix (Fin mg.numCells) (Fin gH.numFaces) ℚ := hatPMat gH mg
  let check_P : Matrix (Fin mg.numCells) (Fin gL.numCells) ℚ := checkPMat gL mg
  let inv_k : ℕ → ℚ := fun i => 1 / (2 * dataEdge.kn i)
  let aperture_h := dataH.param.getAperture
  let Eta : Matrix (Fin mg.numCells) (Fin mg.numCells) ℚ :=
    Matrix.diagonal fun i =>
      inv_k i.val / hat_P.mulVec (fun f => aperture_h (cells_h f.val)) i
  let face_areas_h : Matrix (Fin gH.numFaces) (Fin gH.numFaces) ℚ :=
    Matrix.diagonal fun f => gH.faceAreas f.val
  let M : Matrix (Fin mg.numCells) (Fin mg.numCells) ℚ :=
    Matrix.diagonal fun i => 1 / mg.cellVolumes i.val
  let mortar_div : Fin mg.numCells → ℚ :=
    fun i => sgnQ (∑ j, (hat_P * div_h.transpose) i j)
  let mortar_div_mat : Matrix (Fin mg.numCells) (Fin mg.numCells) ℚ :=
    Matrix.diagonal mortar_div
  let mortar_to_bc := bound_flux_h * hat_P.transpose
  let cc02 := div_h * mortar_to_bc
  let cc12 := -check_P.transpose
  let hat_P_to_mortar := hat_P * bound_pressure_cc_h
  let cc20 := hat_P_to_mortar
  let cc22 := hat_P * bound_pressure_face_h * hat_P.transpose - Eta * M
  let cc21 := -check_P
  some
    ({ matrix with
        b02 := matrix.b02 + cc02
        b12 := matrix.b12 + cc12
        b20 := matrix.b20 + cc20
        b21 := matrix.b21 + cc21
        b22 := matrix.b22 + cc22 },
     { mortar_to_bc := mortar_to_bc
       jump := -check_P.transpose
       hat_P_to_mortar := hat_P_to_mortar
       check_P_to_mortar := check_P
       mortar_weight := cc22 })

/-- The same assembly with the unused orientation computation
(`mortar_div`, `mortar_div_mat`, lines 345-346) omitted: the comparison
definition for the refinement claim that the orientation factor is dead. -/
def matrix_rhs_noOrient (gH gL : Grid) (dataEdge : EdgeData)
    (matrix : Blocks3 gH.numCells gL.numCells dataEdge.mortarGrid.numCells)
    (dataH : FlowRecord) (_dataL : FlowRecord) :
    Option (Blocks3 gH.numCells gL.numCells dataEdge.mortarGrid.numCells ×
      CouplingWrites gH.numCells gL.numCells gH.numFaces
        dataEdge.mortarGrid.numCells) := do
  let mg := dataEdge.mortarGrid
  let bpcV ← dataH.boundPressureCell?
  let bound_pressure_cc_h ← bpcV.asMat gH.numFaces gH.numCells
  let bpfV ← dataH.boundPressureFace?
  let bound_pressure_face_h ← bpfV.asMat gH.numFaces gH.numFaces
  let cells_h : ℕ → ℕ := fun f => (firstIncidence gH f).1
  let bfV ← dataH.boundFlux?
  let bound_flux_h ← bfV.asMat gH.numFaces gH.numFaces
  let div_h := scalarDivergence gH
  let hat_P : Matrix (Fin mg.numCells) (Fin gH.numFaces) ℚ := hatPMat gH mg
  let check_P : Matrix (Fin mg.numCells) (Fin gL.numCells) ℚ := checkPMat gL mg
  let inv_k : ℕ → ℚ := fun i => 1 / (2 * dataEdge.kn i)
  let aperture_h := dataH.param.getAperture
  let Eta : Matrix (Fin mg.numCells) (Fin mg.numCells) ℚ :=
    Matrix.diagonal fun i =>
      inv_k i.val / hat_P.mulVec (fun f => aperture_h (cells_h f.val)) i
  let face_areas_h : Matrix (Fin gH.numFaces) (Fin gH.numFaces) ℚ :=
    Matrix.diagonal fun f => gH.faceAreas f.val
  let M : Matrix (Fin mg.numCells) (Fin mg.numCells) ℚ :=
    Matrix.diagonal fun i => 1 / mg.cellVolumes i.val
  let mortar_to_bc := bound_flux_h * hat_P.transpose
  let cc02 := div_h * mortar_to_bc
  let cc12 := -check_P.transpose
  let hat_P_to_mortar := hat_P * bound_pressure_cc_h
  let cc20 := hat_P_to_mortar
  let cc22 := hat_P * bound_pressure_face_h * hat_P.transpose - Eta * M
  let cc21 := -check_P
  some
    ({ matrix with
        b02 := matrix.b02 + cc02
        b12 := matrix.b12 + cc12
        b20 := matrix.b20 + cc20
        b21 := matrix.b21 + cc21
        b22 := matrix.b22 + cc22 },
     { mortar_to_bc := mortar_to_bc
       jump := -check_P.transpose
       hat_P_to_mortar := hat_P_to_mortar
       check_P_to_mortar := check_P
       mortar_weight := cc22 })

end TpfaCoupling

namespace TpfaCouplingDFN

/-- Half-transmissibility of a higher-dimensional face in
`TpfaCouplingDFN.matrix_rhs` (lines 425-445): same contraction and policies
as `Tpfa.discretize`, using the face's first incidence, with the aperture of
the adjacent cell multiplied in before the division. -/
def t (sqrtFn : ℚ → ℚ) (gH : Grid) (pH : Param) (aav : Bool) (f : ℕ) : ℚ :=
  let cs := firstIncidence gH f
  let n : Vec := smulV cs.2 (gH.faceNormals f)
  let fc_cc : Vec := subV (gH.faceCenters f) (gH.cellCenters cs.1)
  let nk : Vec := (pH.perm cs.1).map (fun row => dotV row n)
  let t_face := if aav then sqrtFn (normSq nk) else dotV nk fc_cc
  let dist := if aav then sqrtFn (normSq fc_cc) else normSq fc_cc
  (t_face * pH.getAperture cs.1) / dist

/-- The four blocks returned by `TpfaCouplingDFN.matrix_rhs`, plus the
flux-recovery operators written into the interface record
(`coupling_flux = hstack([cells2faces * cc00, cells2faces * cc01])`,
kept as its two horizontal halves). -/
structure DfnResult (nch ncl nfh : ℕ) where
  cc00 : Matrix (Fin nch) (Fin nch) ℚ
  cc01 : Matrix (Fin nch) (Fin ncl) ℚ
  cc10 : Matrix (Fin ncl) (Fin nch) ℚ
  cc11 : Matrix (Fin ncl) (Fin ncl) ℚ
  cells2faces : Matrix (Fin nfh) (Fin nch) ℚ
  coupling_flux_h : Matrix (Fin nfh) (Fin nch) ℚ
  coupling_flux_l : Matrix (Fin nfh) (Fin ncl) ℚ

/-- `TpfaCouplingDFN.matrix_rhs(g_h, g_l, data_h, data_l, data_edge)`:
recomputes the interface faces' half-transmissibilities and assembles the
2×2 block coupling (dof sizes are the cell counts, `Tpfa.ndof`). -/
def matrix_rhs (sqrtFn : ℚ → ℚ) (gH gL : Grid) (dataH : FlowRecord)
    (_dataL : FlowRecord) (dataEdge : EdgeData) :
    DfnResult gH.numCells gL.numCells gH.numFaces :=
  let pH := dataH.param
  let aav := (dataEdge.aav).getD false
  let pairs := dataEdge.faceCells
  let cells_h : ℕ → ℕ := fun f => (firstIncidence gH f).1
  let sgn_h : ℕ → ℚ := fun f => (firstIncidence gH f).2
  let tv : ℕ → ℚ := t sqrtFn gH pH aav
  let cc10 := cooMat gL.numCells gH.numCells
    (pairs.map fun q => (q.1, cells_h q.2, -tv q.2))
  let cc01 := cc10.transpose
  let cc00 := cooMat gH.numCells gH.numCells
    (pairs.map fun q => (cells_h q.2, cells_h q.2, tv q.2))
  let cc11 := cooMat gL.numCells gL.numCells
    (pairs.map fun q => (q.1, q.1, tv q.2))
  let cells2faces := cooMat gH.numFaces gH.numCells
    (pairs.map fun q => (q.2, cells_h q.2, sgn_h q.2))
  { cc00 := cc00
    cc01 := cc01
    cc10 := cc10
    cc11 := cc11
    cells2faces := cells2faces
    coupling_flux_h := cells2faces * cc00
    coupling_flux_l := cells2faces * cc01 }

end TpfaCouplingDFN

/-! ### Concrete fixtures for witnesses and counterexamples -/

/-- Identity stand-in for the square-root primitive: only claims about the
default (projection) policy are evaluated on fixtures, and that policy never
calls the primitive. -/
def idQ : ℚ → ℚ := fun q => q

/-- A 1-d parameter set: unit permeability, Dirichlet on face 0, Neumann on
face 2, boundary value 1 on face 0, no aperture. -/
def pA : Param where
  perm := fun _ => [[1]]
  isDir := fun f => f == 0
  isNeu := fun f => f == 2
  bcVal := fun f => if f == 0 then 1 else 0
  aperture := none

/-- A 1-d grid of two unit cells: faces at 0, 1, 2; cells at 1/2, 3/2. -/
def gA : Grid where
  dim := 1
  numCells := 2
  numFaces := 3
  cellFaces := [(0, 0, -1), (1, 0, 1), (1, 1, -1), (2, 1, 1)]
  faceNormals := fun _ => [1]
  faceCenters := fun f => [(f : ℚ)]
  cellCenters := fun c => [(c : ℚ) + 1 / 2]
  faceAreas := fun _ => 1
  boundaryFaces := [0, 2]

/-- A fresh data record over `pA` (no stored discretization). -/
def rA : FlowRecord where
  param := pA
  aav := none
  flux? := none
  boundFlux? := none
  boundPressureCell? := none
  boundPressureFace? := none

/-- A zero-dimensional (point) grid. -/
def g0 : Grid where
  dim := 0
  numCells := 1
  numFaces := 0
  cellFaces := []
  faceNormals := fun _ => []
  faceCenters := fun _ => []
  cellCenters := fun _ => []
  faceAreas := fun _ => 0
  boundaryFaces := []

/-- A trivial one-cell lower-dimensional grid used by the coupling
fixtures. -/
def gL1 : Grid where
  dim := 1
  numCells := 1
  numFaces := 0
  cellFaces := []
  faceNormals := fun _ => []
  faceCenters := fun _ => []
  cellCenters := fun _ => [0]
  faceAreas := fun _ => 0
  boundaryFaces := []

/-- A square grid (as many faces as cells, both incident to cell 0), on which
the ill-stated right-hand-side formula of the single-domain assembly claim
type-checks and can be compared with the code. -/
def gC1 : Grid where
  dim := 1
  numCells := 2
  numFaces := 2
  cellFaces := [(0, 0, 1), (1, 0, 1)]
  faceNormals := fun _ => [1]
  faceCenters := fun f => [(f : ℚ)]
  cellCenters := fun c => [(c : ℚ) + 1 / 2]
  faceAreas := fun _ => 1
  boundaryFaces := [0, 1]

/-- Parameters for `gC1`: both faces Dirichlet, boundary value 1 on face 0. -/
def pC1 : Param where
  perm := fun _ => [[1]]
  isDir := fun _ => true
  isNeu := fun _ => false
  bcVal := fun f => if f == 0 then 1 else 0
  aperture := none

/-- A fresh record over `pC1`. -/
def rC1 : FlowRecord where
  param := pC1
  aav := none
  flux? := none
  boundFlux? := none
  boundPressureCell? := none
  boundPressureFace? := none

/-- The all-zero 3×3 block matrix (a fresh global system). -/
def zeroBlocks3 (n0 n1 n2 : ℕ) : Blocks3 n0 n1 n2 where
  b00 := 0
  b01 := 0
  b02 := 0
  b10 := 0
  b11 := 0
  b12 := 0
  b20 := 0
  b21 := 0
  b22 := 0

/-- A one-cell mortar grid over `gA`'s face 2 with unit volumes and unit
projections. -/
def mgA : MortarGrid where
  numCells := 1
  cellVolumes := fun _ => 1
  hatPf := fun _ f => if f == 2 then 1 else 0
  checkPf := fun _ _ => 1

/-- Interface data over `mgA` with unit normal permeability and the single
coupling pair (low cell 0, high face 0). -/
def edgeA : EdgeData where
  mortarGrid := mgA
  kn := fun _ => 1
  faceCells := [(0, 0)]
  aav := none

/-- A higher-dimensional record holding a stored discretization of `gA`. -/
def dataHA : FlowRecord where
  param := pA
  aav := none
  flux? := some (.mat 3 2 (Tpfa.fluxMat idQ gA pA false none))
  boundFlux? := some (.mat 3 3 (Tpfa.boundFluxMat idQ gA pA false))
  boundPressureCell? := some (.mat 3 2 (Tpfa.boundPressureCellMat gA pA))
  boundPressureFace? := some (.mat 3 3 (Tpfa.boundPressureFaceMat idQ gA pA false))

/-- A one-cell, one-face higher grid for the mortar-block counterexample. -/
def gC4h : Grid where
  dim := 1
  numCells := 1
  numFaces := 1
  cellFaces := [(0, 0, 1)]
  faceNormals := fun _ => [1]
  faceCenters := fun _ => [0]
  cellCenters := fun _ => [1 / 2]
  faceAreas := fun _ => 1
  boundaryFaces := [0]

/-- A one-cell mortar grid over `gC4h` with unit data. -/
def mgC4 : MortarGrid where
  numCells := 1
  cellVolumes := fun _ => 1
  hatPf := fun _ _ => 1
  checkPf := fun _ _ => 1

/-- Interface data over `mgC4` with unit normal permeability. -/
def edgeC4 : EdgeData where
  mortarGrid := mgC4
  kn := fun _ => 1
  faceCells := []
  aav := none

/-- The divergence operator of `gC1`, at its concrete (square) shape. -/
def divergenceC1 : Matrix (Fin 2) (Fin 2) ℚ := scalarDivergence gC1

/-- The boundary-flux operator of `gC1`, at its concrete shape. -/
def boundFluxC1 : Matrix (Fin 2) (Fin 2) ℚ := Tpfa.boundFluxMat idQ gC1 pC1 false

/-- A record over `gC4h` whose stored boundary-pressure-face operator is the
1×1 matrix `[3]` (so the pressure-trace contribution to the mortar-mortar
block is visibly nonzero). -/
def dataC4h : FlowRecord where
  param := pC1
  aav := none
  flux? := some (.mat 1 1 0)
  boundFlux? := some (.mat 1 1 0)
  boundPressureCell? := some (.mat 1 1 0)
  boundPressureFace? := some (.mat 1 1 (Matrix.of fun _ _ => 3))

/-! ### General lemmas about the sparse-matrix embedding -/

/-- Reading back a stored matrix at its own shape succeeds and is the
identity. -/
theorem DVal.asMat_self (m n : ℕ) (M : Matrix (Fin m) (Fin n) ℚ) :
    (DVal.mat m n M).asMat m n = some M := by
  simp [DVal.asMat]

/-- Filtering a mapped list is mapping the filtered list. -/
theorem filterOfMap {α β : Type} (p : β → Bool) (g : α → β) (l : List α) :
    (l.map g).filter p = (l.filter fun a => p (g a)).map g := by
  induction l with
  | nil => rfl
  | cons x xs ih =>
    simp only [List.map_cons, List.filter_cons]
    by_cases hx : p (g x) <;> simp [hx, ih]

/-- Entry of a COO matrix built by mapping a source list into triplets. -/
theorem cooMat_map_apply {α : Type} (m n : ℕ) (l : List α) (gf : α → ℕ × ℕ × ℚ)
    (i : Fin m) (j : Fin n) :
    cooMat m n (l.map gf) i j =
      ((l.filter fun a => (gf a).1 == i.val && (gf a).2.1 == j.val).map
        fun a => (gf a).2.2).sum := by
  show (((l.map gf).filter fun e => e.1 == i.val && e.2.1 == j.val).map
    fun e => e.2.2).sum = _
  rw [filterOfMap, List.map_map]
  rfl

/-- If filtering yields the singleton `[a]`, then `find?` yields `a`. -/
theorem find?_of_filter_singleton {α : Type} {p : α → Bool} {l : List α} {a : α}
    (h : l.filter p = [a]) : l.find? p = some a := by
  induction l with
  | nil => simp at h
  | cons x xs ih =>
    by_cases hx : p x
    · rw [List.filter_cons_of_pos hx] at h
      obtain ⟨rfl, -⟩ := List.cons.inj h
      simp [List.find?_cons, hx]
    · rw [List.filter_cons_of_neg hx] at h
      simpa [List.find?_cons, hx] using ih h

/-- Grouping a weighted list sum by an index key that stays below `n`
recovers the total sum. -/
theorem sum_fin_key {α : Type} (n : ℕ) (l : List α) (w : α → ℚ) (key : α → ℕ)
    (h : ∀ a ∈ l, key a < n) :
    (∑ i : Fin n, ((l.filter fun a => key a == i.val).map w).sum) =
      (l.map w).sum := by
  induction l with
  | nil => simp
  | cons x xs ih =>
    have hx : key x < n := h x (List.mem_cons_self x xs)
    have hxs : ∀ a ∈ xs, key a < n := fun a ha => h a (List.mem_cons_of_mem x ha)
    have hsplit : ∀ i : Fin n,
        (((x :: xs).filter fun a => key a == i.val).map w).sum =
        (if (⟨key x, hx⟩ : Fin n) = i then w x else 0) +
          ((xs.filter fun a => key a == i.val).map w).sum := by
      intro i
      by_cases hk : key x = i.val
      · rw [List.filter_cons_of_pos (by simp [hk])]
        rw [if_pos (Fin.ext hk)]
        simp
      · rw [List.filter_cons_of_neg (by simp [hk])]
        rw [if_neg (fun hc => hk (congrArg Fin.val hc))]
        simp
    rw [Finset.sum_congr rfl (fun i _ => hsplit i), Finset.sum_add_distrib,
      Finset.sum_ite_eq]
    simp [ih hxs]

/-- A face with a single incidence has full transmissibility equal to its one
half-transmissibility (the one-term harmonic combination). -/
theorem t_of_single_incidence (sqrtFn : ℚ → ℚ) (g : Grid) (p : Param)
    (aav : Bool) (f c : ℕ) (s : ℚ)
    (hinc : Tpfa.faceIncidences g f = [(f, c, s)]) :
    Tpfa.t sqrtFn g p aav f = Tpfa.t_face sqrtFn g p aav (f, c, s) := by
  unfold Tpfa.t
  rw [hinc, List.map_cons, List.map_nil, List.sum_cons, List.sum_nil,
    add_zero, one_div_one_div]

/-- A face with a single incidence has `bndr_sgn` equal to that incidence's
sign. -/
theorem boundarySgn_of_single (g : Grid) (f c : ℕ) (s : ℚ)
    (hinc : Tpfa.faceIncidences g f = [(f, c, s)]) :
    Tpfa.boundarySgn g f = s := by
  unfold Tpfa.faceIncidences at hinc
  unfold Tpfa.boundarySgn
  rw [find?_of_filter_singleton hinc]

/-- The diagonal entry of the boundary-flux operator at a boundary face that
occurs once in the boundary list is `t_b * bndr_sgn`. -/
theorem boundFluxMat_diag (sqrtFn : ℚ → ℚ) (g : Grid) (p : Param) (aav : Bool)
    (f : Fin g.numFaces)
    (hb : g.boundaryFaces.filter (fun b => b == f.val) = [f.val]) :
    Tpfa.boundFluxMat sqrtFn g p aav f f =
      Tpfa.t_b sqrtFn g p aav f.val * Tpfa.boundarySgn g f.val := by
  rw [Tpfa.boundFluxMat, cooMat_map_apply]
  have hpred : (g.boundaryFaces.filter fun b =>
      ((b, b, Tpfa.t_b sqrtFn g p aav b * Tpfa.boundarySgn g b) :
        ℕ × ℕ × ℚ).1 == f.val &&
      ((b, b, Tpfa.t_b sqrtFn g p aav b * Tpfa.boundarySgn g b) :
        ℕ × ℕ × ℚ).2.1 == f.val) =
      g.boundaryFaces.filter fun b => b == f.val := by
    apply List.filter_congr
    intro b _
    simp
  rw [hpred, hb, List.map_cons, List.map_nil, List.sum_cons, List.sum_nil,
    add_zero]

/-- A row of the flux operator whose face has zeroed transmissibility is
zero. -/
theorem fluxMat_row_zero (sqrtFn : ℚ → ℚ) (g : Grid) (p : Param) (aav : Bool)
    (faces : Option (List ℕ)) (f : Fin g.numFaces) (c : Fin g.numCells)
    (hz : Tpfa.tZeroed sqrtFn g p aav faces f.val = 0) :
    Tpfa.fluxMat sqrtFn g p aav faces f c = 0 := by
  rw [Tpfa.fluxMat, cooMat_map_apply]
  apply List.sum_eq_zero
  intro x hx
  obtain ⟨e, he, rfl⟩ := List.mem_map.mp hx
  have hmem := (List.mem_filter.mp he).2
  have hface : e.1 = f.val := by
    simp only [Bool.and_eq_true, beq_iff_eq] at hmem
    exact hmem.1
  show Tpfa.tZeroed sqrtFn g p aav faces e.1 * e.2.2 = 0
  rw [hface, hz, zero_mul]

/-- A non-Neumann face's row of `bound_pressure_cell` is zero. -/
theorem boundPressureCellMat_row_zero (g : Grid) (p : Param)
    (f : Fin g.numFaces) (hneu : p.isNeu f.val = false) (c : Fin g.numCells) :
    Tpfa.boundPressureCellMat g p f c = 0 := by
  rw [Tpfa.boundPressureCellMat, cooMat_map_apply]
  apply List.sum_eq_zero
  intro x hx
  obtain ⟨e, he, rfl⟩ := List.mem_map.mp hx
  have hmem := (List.mem_filter.mp he).2
  have hface : e.1 = f.val := by
    simp only [Bool.and_eq_true, beq_iff_eq] at hmem
    exact hmem.1
  show (if p.isNeu e.1 then (1 : ℚ) else 0) = 0
  rw [hface, hneu]
  rfl

/-- Summing the negations of mapped values negates the mapped sum. -/
theorem sum_map_neg {α : Type} (l : List α) (f : α → ℚ) :
    (l.map fun a => -f a).sum = -(l.map f).sum := by
  induction l with
  | nil => simp
  | cons x xs ih =>
    rw [List.map_cons, List.map_cons, List.sum_cons, List.sum_cons, ih,
      neg_add]

/-! ### The claims -/

/-- Claim C2: for an interior face with exactly two incidences whose
half-transmissibilities are `t1` and `t2` (both nonzero), the face
transmissibility computed by `Tpfa.discretize` (the array `t`) is the
harmonic combination `1 / (1/t1 + 1/t2)`, obtained by grouping the
reciprocal half-transmissibilities by face index. -/
theorem claim_C2 (sqrtFn : ℚ → ℚ) (g : Grid) (p : Param) (aav : Bool) (f : ℕ)
    (e1 e2 : ℕ × ℕ × ℚ) (t1 t2 : ℚ)
    (hinc : Tpfa.faceIncidences g f = [e1, e2])
    (h1 : Tpfa.t_face sqrtFn g p aav e1 = t1)
    (h2 : Tpfa.t_face sqrtFn g p aav e2 = t2)
    (ht1 : t1 ≠ 0) (ht2 : t2 ≠ 0) :
    Tpfa.t sqrtFn g p aav f = 1 / (1 / t1 + 1 / t2) := by
  unfold Tpfa.t
  rw [hinc, List.map_cons, List.map_cons, List.map_nil, List.sum_cons,
    List.sum_cons, List.sum_nil, h1, h2, add_zero]

/-- Witness for C2 on the concrete two-cell grid `gA`: the interior face 1
has half-transmissibilities 2 and 2 and full transmissibility
`1 / (1/2 + 1/2)`. -/
theorem claim_C2_witness :
    Tpfa.faceIncidences gA 1 = [(1, 0, 1), (1, 1, -1)] ∧
    Tpfa.t idQ gA pA false 1 = 1 / (1 / 2 + 1 / 2) :=
  ⟨by decide,
   claim_C2 idQ gA pA false 1 (1, 0, 1) (1, 1, -1) 2 2 (by decide) (by decide)
     (by decide) (by decide) (by decide)⟩

/-- Claim C9: on a zero-dimensional grid, `Tpfa.discretize` short-circuits,
storing the 1×1 zero sparse matrix under `flux` and the scalar `0` under
`bound_flux`, and leaving `bound_pressure_cell` and `bound_pressure_face`
unwritten. -/
theorem claim_C9 (sqrtFn : ℚ → ℚ) (g : Grid) (r : FlowRecord)
    (faces : Option (List ℕ)) (hdim : g.dim = 0) :
    (Tpfa.discretize sqrtFn g r faces).flux? = some (.mat 1 1 0) ∧
    (Tpfa.discretize sqrtFn g r faces).boundFlux? = some (.scal 0) ∧
    (Tpfa.discretize sqrtFn g r faces).boundPressureCell? =
      r.boundPressureCell? ∧
    (Tpfa.discretize sqrtFn g r faces).boundPressureFace? =
      r.boundPressureFace? := by
  unfold Tpfa.discretize
  rw [if_pos hdim]
  exact ⟨rfl, rfl, rfl, rfl⟩

/-- Witness for C9 on the concrete point grid `g0` with a fresh record:
the record ends with the trivial operators and still no
boundary-pressure-reconstruction keys. -/
theorem claim_C9_witness :
    (Tpfa.discretize idQ g0 rA none).flux? = some (.mat 1 1 0) ∧
    (Tpfa.discretize idQ g0 rA none).boundFlux? = some (.scal 0) ∧
    (Tpfa.discretize idQ g0 rA none).boundPressureCell? = none ∧
    (Tpfa.discretize idQ g0 rA none).boundPressureFace? = none :=
  claim_C9 idQ g0 rA none (by decide)

/-- Counterexample to claim C4 as stated: on a concrete one-face interface
whose stored `bound_pressure_face` operator is the 1×1 matrix `[3]`, the
(mortar, mortar) block of the assembled coupling matrix is not the diagonal
self-term `-(inverse_k / aperture) / (2 × volume)`: the block also carries
the projected pressure-trace contribution
`hat_P * bound_pressure_face * hat_P^T`, and the self-term is divided by the
volume alone (the factor 2 already sits inside `inverse_k = 1/(2·kn)`). -/
theorem claim_C4_counterexample :
    (TpfaCoupling.matrix_rhs gC4h gL1 edgeC4 (zeroBlocks3 1 1 1) dataC4h rA).map
        (fun x => x.1.b22) ≠
      some (Matrix.diagonal fun i =>
        -((1 / (2 * edgeC4.kn i.val)) /
            ((hatPMat gC4h edgeC4.mortarGrid).mulVec
              (fun f => apertureHVec gC4h dataC4h.param f.val)) i /
          (2 * edgeC4.mortarGrid.cellVolumes i.val))) := by
  decide

/-- Claim C4, amended: the (mortar, mortar) block assembled by
`TpfaCoupling.matrix_rhs` adds to the previous block the pressure-trace
contribution `hat_P * bound_pressure_face * hat_P^T` minus the diagonal
self-term whose entry per mortar cell is
`1 / (2 · kn · aperture-projected · cell volume)` — i.e. the inverse normal
permeability `inverse_k = 1/(2·kn)` divided elementwise by the projected
apertures, times the inverse mortar cell volume; the same matrix is written
under the `mortar_weight` key (without the previous block). -/
theorem claim_C4 (gH gL : Grid) (dataEdge : EdgeData)
    (matrix : Blocks3 gH.numCells gL.numCells dataEdge.mortarGrid.numCells)
    (dataH dataL : FlowRecord)
    (BPC : Matrix (Fin gH.numFaces) (Fin gH.numCells) ℚ)
    (BPF BF : Matrix (Fin gH.numFaces) (Fin gH.numFaces) ℚ)
    (hbpc : dataH.boundPressureCell? = some (.mat gH.numFaces gH.numCells BPC))
    (hbpf : dataH.boundPressureFace? = some (.mat gH.numFaces gH.numFaces BPF))
    (hbf : dataH.boundFlux? = some (.mat gH.numFaces gH.numFaces BF)) :
    (TpfaCoupling.matrix_rhs gH gL dataEdge matrix dataH dataL).map
        (fun x => x.1.b22) =
      some (matrix.b22 +
        (hatPMat gH dataEdge.mortarGrid * BPF *
            (hatPMat gH dataEdge.mortarGrid).transpose -
          Matrix.diagonal (fun i =>
            1 / (2 * dataEdge.kn i.val *
              (hatPMat gH dataEdge.mortarGrid).mulVec
                (fun f => apertureHVec gH dataH.param f.val) i *
              dataEdge.mortarGrid.cellVolumes i.val)))) ∧
    (TpfaCoupling.matrix_rhs gH gL dataEdge matrix dataH dataL).map
        (fun x => x.2.mortar_weight) =
      some (hatPMat gH dataEdge.mortarGrid * BPF *
            (hatPMat gH dataEdge.mortarGrid).transpose -
          Matrix.diagonal (fun i =>
            1 / (2 * dataEdge.kn i.val *
              (hatPMat gH dataEdge.mortarGrid).mulVec
                (fun f => apertureHVec gH dataH.param f.val) i *
              dataEdge.mortarGrid.cellVolumes i.val))) := by
  have hEtaM :
      (Matrix.diagonal (fun i : Fin dataEdge.mortarGrid.numCells =>
          (1 / (2 * dataEdge.kn i.val)) /
            (hatPMat gH dataEdge.mortarGrid).mulVec
              (fun f => dataH.param.getAperture (firstIncidence gH f.val).1) i) *
        Matrix.diagonal (fun i : Fin dataEdge.mortarGrid.numCells =>
          1 / dataEdge.mortarGrid.cellVolumes i.val)) =
      Matrix.diagonal (fun i =>
        1 / (2 * dataEdge.kn i.val *
          (hatPMat gH dataEdge.mortarGrid).mulVec
            (fun f => apertureHVec gH dataH.param f.val) i *
          dataEdge.mortarGrid.cellVolumes i.val)) := by
    rw [Matrix.diagonal_mul_diagonal]
    apply congrArg Matrix.diagonal
    funext i
    rw [div_div, mul_one_div, div_div]
    rfl
  constructor
  · simp only [TpfaCoupling.matrix_rhs, hbpc, hbpf, hbf, DVal.asMat_self,
      Option.bind_eq_bind, Option.some_bind]
    rw [hEtaM]
    rfl
  · simp only [TpfaCoupling.matrix_rhs, hbpc, hbpf, hbf, DVal.asMat_self,
      Option.bind_eq_bind, Option.some_bind]
    rw [hEtaM]
    rfl

/-- Witness for the amended C4 on the concrete interface `edgeA` over `gA`
with the stored discretization `dataHA`. -/
theorem claim_C4_witness :
    (TpfaCoupling.matrix_rhs gA gL1 edgeA (zeroBlocks3 2 1 1) dataHA rA).map
        (fun x => x.2.mortar_weight) =
      some (hatPMat gA edgeA.mortarGrid *
            Tpfa.boundPressureFaceMat idQ gA pA false *
            (hatPMat gA edgeA.mortarGrid).transpose -
          Matrix.diagonal (fun i =>
            1 / (2 * edgeA.kn i.val *
              (hatPMat gA edgeA.mortarGrid).mulVec
                (fun f => apertureHVec gA dataHA.param f.val) i *
              edgeA.mortarGrid.cellVolumes i.val))) :=
  (claim_C4 gA gL1 edgeA (zeroBlocks3 2 1 1) dataHA rA
    (Tpfa.boundPressureCellMat gA pA) (Tpfa.boundPressureFaceMat idQ gA pA false)
    (Tpfa.boundFluxMat idQ gA pA false) rfl rfl rfl).2

/-- Claim C10: the orientation sign matrix `mortar_div_mat` computed inside
`TpfaCoupling.matrix_rhs` is never applied: the assembled blocks and all keys
written to the interface record coincide with those of the same computation
with the orientation factor omitted. -/
theorem claim_C10 (gH gL : Grid) (dataEdge : EdgeData)
    (matrix : Blocks3 gH.numCells gL.numCells dataEdge.mortarGrid.numCells)
    (dataH dataL : FlowRecord) :
    TpfaCoupling.matrix_rhs gH gL dataEdge matrix dataH dataL =
      TpfaCoupling.matrix_rhs_noOrient gH gL dataEdge matrix dataH dataL :=
  rfl

/-- Claim C3: after `Tpfa.discretize` on a grid of dimension ≥ 1, a Dirichlet
boundary face's diagonal entry of the boundary-flux operator is the negative
of its single half-transmissibility oriented by its incidence sign; a Neumann
boundary face's diagonal entry is exactly 1 oriented by the same sign and its
flux-operator row is zero; and a face outside the declared active subset also
has a zeroed flux-operator row. -/
theorem claim_C3 (sqrtFn : ℚ → ℚ) (g : Grid) (r : FlowRecord)
    (faces : Option (List ℕ)) (hdim : g.dim ≠ 0) :
    ((Tpfa.discretize sqrtFn g r faces).boundFlux? =
      some (.mat g.numFaces g.numFaces
        (Tpfa.boundFluxMat sqrtFn g r.param ((r.aav).getD false)))) ∧
    (∀ (p : Param) (aav : Bool) (f : Fin g.numFaces) (c : ℕ) (s : ℚ),
      p.isDir f.val = true → p.isNeu f.val = false →
      Tpfa.faceIncidences g f.val = [(f.val, c, s)] →
      g.boundaryFaces.filter (fun b => b == f.val) = [f.val] →
      Tpfa.boundFluxMat sqrtFn g p aav f f =
        -(Tpfa.t_face sqrtFn g p aav (f.val, c, s)) * s) ∧
    (∀ (p : Param) (aav : Bool) (f : Fin g.numFaces) (c : ℕ) (s : ℚ),
      p.isNeu f.val = true →
      Tpfa.faceIncidences g f.val = [(f.val, c, s)] →
      g.boundaryFaces.filter (fun b => b == f.val) = [f.val] →
      Tpfa.boundFluxMat sqrtFn g p aav f f = 1 * s) ∧
    (∀ (p : Param) (aav : Bool) (f : Fin g.numFaces) (c : Fin g.numCells),
      p.isNeu f.val = true → Tpfa.fluxMat sqrtFn g p aav faces f c = 0) ∧
    (∀ (p : Param) (aav : Bool) (f : Fin g.numFaces) (c : Fin g.numCells),
      Tpfa.isNotActive faces f.val = true →
      Tpfa.fluxMat sqrtFn g p aav faces f c = 0) := by
  refine ⟨by simp [Tpfa.discretize, hdim], ?_, ?_, ?_, ?_⟩
  · intro p aav f c s hdir hneu hinc hb
    rw [boundFluxMat_diag sqrtFn g p aav f hb,
      boundarySgn_of_single g f.val c s hinc]
    unfold Tpfa.t_b
    rw [if_neg (by simp [hneu]), if_pos hdir,
      t_of_single_incidence sqrtFn g p aav f.val c s hinc]
  · intro p aav f c s hneu hinc hb
    rw [boundFluxMat_diag sqrtFn g p aav f hb,
      boundarySgn_of_single g f.val c s hinc]
    unfold Tpfa.t_b
    rw [if_pos hneu]
  · intro p aav f c hneu
    apply fluxMat_row_zero
    unfold Tpfa.tZeroed
    rw [if_pos (by simp [hneu])]
  · intro p aav f c hact
    apply fluxMat_row_zero
    unfold Tpfa.tZeroed
    rw [if_pos (by simp [hact])]

/-- Witness for C3 on `gA` with active subset `[0, 1]`: face 0 is Dirichlet
with half-transmissibility 2 and sign −1, face 2 is Neumann with sign 1 and a
zero flux row, and face 2 is also outside the active subset. -/
theorem claim_C3_witness :
    ((Tpfa.discretize idQ gA rA (some [0, 1])).boundFlux? =
      some (.mat gA.numFaces gA.numFaces
        (Tpfa.boundFluxMat idQ gA rA.param ((rA.aav).getD false)))) ∧
    Tpfa.boundFluxMat idQ gA pA false ⟨0, by decide⟩ ⟨0, by decide⟩ =
      -(Tpfa.t_face idQ gA pA false (0, 0, -1)) * (-1) ∧
    Tpfa.boundFluxMat idQ gA pA false ⟨2, by decide⟩ ⟨2, by decide⟩ = 1 * 1 ∧
    Tpfa.fluxMat idQ gA pA false (some [0, 1]) ⟨2, by decide⟩ ⟨0, by decide⟩ = 0 ∧
    Tpfa.fluxMat idQ gA pA false (some [0, 1]) ⟨2, by decide⟩ ⟨1, by decide⟩ = 0 :=
  ⟨(claim_C3 idQ gA rA (some [0, 1]) (by decide)).1,
   (claim_C3 idQ gA rA (some [0, 1]) (by decide)).2.1 pA false ⟨0, by decide⟩ 0
     (-1) (by decide) (by decide) (by decide) (by decide),
   (claim_C3 idQ gA rA (some [0, 1]) (by decide)).2.2.1 pA false ⟨2, by decide⟩
     1 1 (by decide) (by decide) (by decide),
   (claim_C3 idQ gA rA (some [0, 1]) (by decide)).2.2.2.1 pA false
     ⟨2, by decide⟩ ⟨0, by decide⟩ (by decide),
   (claim_C3 idQ gA rA (some [0, 1]) (by decide)).2.2.2.2 pA false
     ⟨2, by decide⟩ ⟨1, by decide⟩ (by decide)⟩

/-- Claim C7: per `(face, adjacent-cell)` incidence, the half-transmissibility
is, by default, the projection of the permeability-contracted scaled normal
onto the face-to-cell displacement divided by the squared displacement length;
under the `Aavatsmark_transmissibilities: True` flag it is instead the ratio
of Euclidean norms (here relative to the square-root primitive `sqrtFn`
modelling `np.linalg.norm`); and `Tpfa.discretize` selects the policy from
the data record with an absent key defaulting to the projection policy. -/
theorem claim_C7 (sqrtFn : ℚ → ℚ) (g : Grid) (r : FlowRecord)
    (faces : Option (List ℕ)) (p : Param) (e : ℕ × ℕ × ℚ) (hdim : g.dim ≠ 0) :
    ((Tpfa.discretize sqrtFn g r faces).flux? =
      some (.mat g.numFaces g.numCells
        (Tpfa.fluxMat sqrtFn g r.param ((r.aav).getD false) faces))) ∧
    (r.aav = none →
      (Tpfa.discretize sqrtFn g r faces).flux? =
        some (.mat g.numFaces g.numCells
          (Tpfa.fluxMat sqrtFn g r.param false faces))) ∧
    (∀ n0 n fc nk : Vec,
      n0 = (match p.aperture with
            | none => g.faceNormals e.1
            | some ap => smulV (ap e.2.1) (g.faceNormals e.1)) →
      n = smulV e.2.2 n0 →
      fc = subV (g.faceCenters e.1) (g.cellCenters e.2.1) →
      nk = (p.perm e.2.1).map (fun row => dotV row n) →
      Tpfa.t_face sqrtFn g p false e = dotV nk fc / normSq fc ∧
      Tpfa.t_face sqrtFn g p true e = sqrtFn (normSq nk) / sqrtFn (normSq fc)) := by
  refine ⟨?_, ?_, ?_⟩
  · simp [Tpfa.discretize, hdim]
  · intro hnone
    simp [Tpfa.discretize, hdim, hnone]
  · intro n0 n fc nk h0 h1 h2 h3
    subst h0 h1 h2 h3
    exact ⟨rfl, rfl⟩

/-- Witness for C7 on the concrete incidence `(1, 0, 1)` of `gA` with a
record that does not carry the flag: the default projection formula yields
the half-transmissibility 2, and the flux operator is built with the flag
off. -/
theorem claim_C7_witness :
    ((Tpfa.discretize idQ gA rA none).flux? =
      some (.mat gA.numFaces gA.numCells
        (Tpfa.fluxMat idQ gA rA.param ((rA.aav).getD false) none))) ∧
    (Tpfa.t_face idQ gA pA false (1, 0, 1) =
      dotV [1] [1 / 2] / normSq [1 / 2] ∧
     Tpfa.t_face idQ gA pA true (1, 0, 1) =
      idQ (normSq [1]) / idQ (normSq [1 / 2])) :=
  ⟨(claim_C7 idQ gA rA none pA (1, 0, 1) (by decide)).1,
   (claim_C7 idQ gA rA none pA (1, 0, 1) (by decide)).2.2 [1] [1] [1 / 2] [1]
     (by decide) (by decide) (by decide) (by decide)⟩

/-- Claim C5: in `TpfaCouplingDFN.matrix_rhs` the off-diagonal blocks are
exact transposes of one another, `cc[1,0]` carries `-t` at each coupling
pair (here for a pair that is the unique one coupling the given low cell to
the given high cell), and the diagonal blocks accumulate `+t` so that, with
in-range indices and nonnegative transmissibilities, each diagonal entry
equals the summed magnitudes of the corresponding off-diagonal row or
column. -/
theorem claim_C5 (sqrtFn : ℚ → ℚ) (gH gL : Grid) (dataH dataL : FlowRecord)
    (dataEdge : EdgeData) (i : Fin gL.numCells) (j : Fin gH.numCells)
    (cl fh : ℕ)
    (hpair : dataEdge.faceCells.filter
        (fun q => q.1 == i.val && (firstIncidence gH q.2).1 == j.val) =
      [(cl, fh)])
    (hrangeL : ∀ q ∈ dataEdge.faceCells, q.1 < gL.numCells)
    (hrangeH : ∀ q ∈ dataEdge.faceCells,
      (firstIncidence gH q.2).1 < gH.numCells)
    (hnn : ∀ q ∈ dataEdge.faceCells,
      0 ≤ TpfaCouplingDFN.t sqrtFn gH dataH.param ((dataEdge.aav).getD false) q.2) :
    ((TpfaCouplingDFN.matrix_rhs sqrtFn gH gL dataH dataL dataEdge).cc01 =
      (TpfaCouplingDFN.matrix_rhs sqrtFn gH gL dataH dataL dataEdge).cc10.transpose) ∧
    ((TpfaCouplingDFN.matrix_rhs sqrtFn gH gL dataH dataL dataEdge).cc10 i j =
      -(TpfaCouplingDFN.t sqrtFn gH dataH.param ((dataEdge.aav).getD false) fh)) ∧
    (∀ j' : Fin gH.numCells,
      (TpfaCouplingDFN.matrix_rhs sqrtFn gH gL dataH dataL dataEdge).cc00 j' j' =
        ∑ i' : Fin gL.numCells,
          |(TpfaCouplingDFN.matrix_rhs sqrtFn gH gL dataH dataL dataEdge).cc10 i' j'|) ∧
    (∀ i' : Fin gL.numCells,
      (TpfaCouplingDFN.matrix_rhs sqrtFn gH gL dataH dataL dataEdge).cc11 i' i' =
        ∑ j' : Fin gH.numCells,
          |(TpfaCouplingDFN.matrix_rhs sqrtFn gH gL dataH dataL dataEdge).cc10 i' j'|) := by
  set P := dataEdge.faceCells with hP
  set tv : ℕ → ℚ :=
    TpfaCouplingDFN.t sqrtFn gH dataH.param ((dataEdge.aav).getD false) with htv
  set ch : ℕ → ℕ := fun f => (firstIncidence gH f).1 with hch
  have hcc10 : (TpfaCouplingDFN.matrix_rhs sqrtFn gH gL dataH dataL dataEdge).cc10 =
      cooMat gL.numCells gH.numCells
        (P.map fun q => (q.1, ch q.2, -(tv q.2))) := rfl
  have hcc00 : (TpfaCouplingDFN.matrix_rhs sqrtFn gH gL dataH dataL dataEdge).cc00 =
      cooMat gH.numCells gH.numCells
        (P.map fun q => (ch q.2, ch q.2, tv q.2)) := rfl
  have hcc11 : (TpfaCouplingDFN.matrix_rhs sqrtFn gH gL dataH dataL dataEdge).cc11 =
      cooMat gL.numCells gL.numCells
        (P.map fun q => (q.1, q.1, tv q.2)) := rfl
  have hentry : ∀ (i' : Fin gL.numCells) (j' : Fin gH.numCells),
      (TpfaCouplingDFN.matrix_rhs sqrtFn gH gL dataH dataL dataEdge).cc10 i' j' =
        -(((P.filter fun q => q.1 == i'.val && ch q.2 == j'.val).map
            fun q => tv q.2).sum) := by
    intro i' j'
    rw [hcc10, cooMat_map_apply]
    show ((P.filter fun q => q.1 == i'.val && ch q.2 == j'.val).map
      fun q => -(tv q.2)).sum = _
    rw [sum_map_neg]
  have habs : ∀ (i' : Fin gL.numCells) (j' : Fin gH.numCells),
      |(TpfaCouplingDFN.matrix_rhs sqrtFn gH gL dataH dataL dataEdge).cc10 i' j'| =
        ((P.filter fun q => q.1 == i'.val && ch q.2 == j'.val).map
          fun q => tv q.2).sum := by
    intro i' j'
    rw [hentry i' j', abs_neg]
    apply abs_of_nonneg
    apply List.sum_nonneg
    intro x hx
    obtain ⟨q, hq, rfl⟩ := List.mem_map.mp hx
    exact hnn q (List.mem_of_mem_filter hq)
  refine ⟨rfl, ?_, ?_, ?_⟩
  · rw [hentry i j]
    have : (P.filter fun q => q.1 == i.val && ch q.2 == j.val) = [(cl, fh)] :=
      hpair
    rw [this, List.map_cons, List.map_nil, List.sum_cons, List.sum_nil,
      add_zero]
  · intro j'
    have hL : (TpfaCouplingDFN.matrix_rhs sqrtFn gH gL dataH dataL dataEdge).cc00 j' j' =
        ((P.filter fun q => ch q.2 == j'.val).map fun q => tv q.2).sum := by
      rw [hcc00, cooMat_map_apply]
      show ((P.filter fun q => ch q.2 == j'.val && ch q.2 == j'.val).map
        fun q => tv q.2).sum = _
      congr 1
      apply congrArg
      exact List.filter_congr fun a _ => Bool.and_self _
    rw [hL]
    have hR : ∀ i' : Fin gL.numCells,
        |(TpfaCouplingDFN.matrix_rhs sqrtFn gH gL dataH dataL dataEdge).cc10 i' j'| =
          (((P.filter fun q => ch q.2 == j'.val).filter
            fun q => q.1 == i'.val).map fun q => tv q.2).sum := by
      intro i'
      rw [habs i' j', List.filter_filter]
    rw [Finset.sum_congr rfl fun i' _ => hR i']
    rw [sum_fin_key gL.numCells (P.filter fun q => ch q.2 == j'.val)
      (fun q => tv q.2) (fun q => q.1)
      (fun a ha => hrangeL a (List.mem_of_mem_filter ha))]
  · intro i'
    have hL : (TpfaCouplingDFN.matrix_rhs sqrtFn gH gL dataH dataL dataEdge).cc11 i' i' =
        ((P.filter fun q => q.1 == i'.val).map fun q => tv q.2).sum := by
      rw [hcc11, cooMat_map_apply]
      show ((P.filter fun q => q.1 == i'.val && q.1 == i'.val).map
        fun q => tv q.2).sum = _
      congr 1
      apply congrArg
      exact List.filter_congr fun a _ => Bool.and_self _
    rw [hL]
    have hR : ∀ j' : Fin gH.numCells,
        |(TpfaCouplingDFN.matrix_rhs sqrtFn gH gL dataH dataL dataEdge).cc10 i' j'| =
          (((P.filter fun q => q.1 == i'.val).filter
            fun q => ch q.2 == j'.val).map fun q => tv q.2).sum := by
      intro j'
      rw [habs i' j', List.filter_filter]
      congr 1
      apply congrArg
      exact List.filter_congr fun a _ => Bool.and_comm _ _
    rw [Finset.sum_congr rfl fun j' _ => hR j']
    rw [sum_fin_key gH.numCells (P.filter fun q => q.1 == i'.val)
      (fun q => tv q.2) (fun q => ch q.2)
      (fun a ha => hrangeH a (List.mem_of_mem_filter ha))]

/-- Witness for C5 on the concrete interface `edgeA` between `gA` and the
one-cell grid `gL1`: the single coupling pair (low cell 0, high face 0) has
transmissibility 2, so `cc[1,0]` carries −2 there and the diagonal entries
match the summed magnitudes. -/
theorem claim_C5_witness :
    ((TpfaCouplingDFN.matrix_rhs idQ gA gL1 dataHA rA edgeA).cc01 =
      (TpfaCouplingDFN.matrix_rhs idQ gA gL1 dataHA rA edgeA).cc10.transpose) ∧
    ((TpfaCouplingDFN.matrix_rhs idQ gA gL1 dataHA rA edgeA).cc10
        ⟨0, by decide⟩ ⟨0, by decide⟩ =
      -(TpfaCouplingDFN.t idQ gA dataHA.param ((edgeA.aav).getD false) 0)) ∧
    (∀ j' : Fin gA.numCells,
      (TpfaCouplingDFN.matrix_rhs idQ gA gL1 dataHA rA edgeA).cc00 j' j' =
        ∑ i' : Fin gL1.numCells,
          |(TpfaCouplingDFN.matrix_rhs idQ gA gL1 dataHA rA edgeA).cc10 i' j'|) :=
  ⟨(claim_C5 idQ gA gL1 dataHA rA edgeA ⟨0, by decide⟩ ⟨0, by decide⟩ 0 0
      (by decide) (by decide) (by decide) (by decide)).1,
   (claim_C5 idQ gA gL1 dataHA rA edgeA ⟨0, by decide⟩ ⟨0, by decide⟩ 0 0
      (by decide) (by decide) (by decide) (by decide)).2.1,
   (claim_C5 idQ gA gL1 dataHA rA edgeA ⟨0, by decide⟩ ⟨0, by decide⟩ 0 0
      (by decide) (by decide) (by decide) (by decide)).2.2.1⟩

/-- Claim C6: after `Tpfa.discretize` on a grid of dimension ≥ 1,
`bound_pressure_cell` carries 1 exactly at the incidences of Neumann faces
and 0 elsewhere; `bound_pressure_face` is diagonal with 1 on Dirichlet faces
and `-1/half-transmissibility` on Neumann (boundary) faces; and the
reconstruction `bound_pressure_cell · p + bound_pressure_face · b` returns
exactly the boundary value at every Dirichlet face. -/
theorem claim_C6 (sqrtFn : ℚ → ℚ) (g : Grid) (r : FlowRecord)
    (faces : Option (List ℕ)) (hdim : g.dim ≠ 0) :
    ((Tpfa.discretize sqrtFn g r faces).boundPressureCell? =
      some (.mat g.numFaces g.numCells (Tpfa.boundPressureCellMat g r.param)) ∧
     (Tpfa.discretize sqrtFn g r faces).boundPressureFace? =
      some (.mat g.numFaces g.numFaces
        (Tpfa.boundPressureFaceMat sqrtFn g r.param ((r.aav).getD false)))) ∧
    (∀ (p : Param) (f : Fin g.numFaces) (c : Fin g.numCells) (s : ℚ),
      p.isNeu f.val = true →
      g.cellFaces.filter (fun e => e.1 == f.val && e.2.1 == c.val) =
        [(f.val, c.val, s)] →
      Tpfa.boundPressureCellMat g p f c = 1) ∧
    (∀ (p : Param) (f : Fin g.numFaces) (c : Fin g.numCells),
      (p.isNeu f.val = false ∨
        g.cellFaces.filter (fun e => e.1 == f.val && e.2.1 == c.val) = []) →
      Tpfa.boundPressureCellMat g p f c = 0) ∧
    (∀ (p : Param) (aav : Bool) (f : Fin g.numFaces),
      p.isDir f.val = true → p.isNeu f.val = false →
      Tpfa.boundPressureFaceMat sqrtFn g p aav f f = 1) ∧
    (∀ (p : Param) (aav : Bool) (f : Fin g.numFaces) (c : ℕ) (s : ℚ),
      p.isNeu f.val = true →
      Tpfa.faceIncidences g f.val = [(f.val, c, s)] →
      Tpfa.boundPressureFaceMat sqrtFn g p aav f f =
        -(1 / Tpfa.t_face sqrtFn g p aav (f.val, c, s))) ∧
    (∀ (p : Param) (aav : Bool) (f f' : Fin g.numFaces), f ≠ f' →
      Tpfa.boundPressureFaceMat sqrtFn g p aav f f' = 0) ∧
    (∀ (p : Param) (aav : Bool) (pv : Fin g.numCells → ℚ)
        (bv : Fin g.numFaces → ℚ) (f : Fin g.numFaces),
      p.isDir f.val = true → p.isNeu f.val = false →
      ((Tpfa.boundPressureCellMat g p).mulVec pv +
        (Tpfa.boundPressureFaceMat sqrtFn g p aav).mulVec bv) f = bv f) := by
  refine ⟨⟨by simp [Tpfa.discretize, hdim], by simp [Tpfa.discretize, hdim]⟩,
    ?_, ?_, ?_, ?_, ?_, ?_⟩
  · intro p f c s hneu hfilter
    rw [Tpfa.boundPressureCellMat, cooMat_map_apply]
    show ((g.cellFaces.filter fun e => e.1 == f.val && e.2.1 == c.val).map
      fun e => if p.isNeu e.1 then (1 : ℚ) else 0).sum = 1
    rw [hfilter, List.map_cons, List.map_nil, List.sum_cons, List.sum_nil,
      add_zero, if_pos hneu]
  · rintro p f c (hneu | hfilter)
    · exact boundPressureCellMat_row_zero g p f hneu c
    · rw [Tpfa.boundPressureCellMat, cooMat_map_apply]
      show ((g.cellFaces.filter fun e => e.1 == f.val && e.2.1 == c.val).map
        fun e => if p.isNeu e.1 then (1 : ℚ) else 0).sum = 0
      rw [hfilter]
      rfl
  · intro p aav f hdir hneu
    show Matrix.diagonal (fun i => Tpfa.v_face sqrtFn g p aav i.val) f f = 1
    rw [Matrix.diagonal_apply_eq]
    unfold Tpfa.v_face
    rw [if_neg (by simp [hneu]), if_pos hdir]
  · intro p aav f c s hneu hinc
    show Matrix.diagonal (fun i => Tpfa.v_face sqrtFn g p aav i.val) f f = _
    rw [Matrix.diagonal_apply_eq]
    unfold Tpfa.v_face
    rw [if_pos hneu, t_of_single_incidence sqrtFn g p aav f.val c s hinc]
  · intro p aav f f' hne
    exact Matrix.diagonal_apply_ne _ hne
  · intro p aav pv bv f hdir hneu
    have hrow : ∀ c, Tpfa.boundPressureCellMat g p f c = 0 :=
      boundPressureCellMat_row_zero g p f hneu
    rw [Pi.add_apply]
    have hcell : (Tpfa.boundPressureCellMat g p).mulVec pv f = 0 := by
      simp [Matrix.mulVec, Matrix.dotProduct, hrow]
    rw [hcell, zero_add, Tpfa.boundPressureFaceMat, Matrix.mulVec_diagonal]
    unfold Tpfa.v_face
    rw [if_neg (by simp [hneu]), if_pos hdir, one_mul]

/-- Witness for C6 on `gA`: the Neumann face 2 carries 1 at its incidence
with cell 1 and `-1/2` on the face-operator diagonal, the Dirichlet face 0
carries 1, and the reconstruction at face 0 returns the boundary value
`bv 0 = 7` for the fields `pv = (5, 11)`, `bv = (7, 0, 13)`. -/
theorem claim_C6_witness :
    ((Tpfa.discretize idQ gA rA none).boundPressureCell? =
      some (.mat gA.numFaces gA.numCells
        (Tpfa.boundPressureCellMat gA rA.param))) ∧
    Tpfa.boundPressureCellMat gA pA ⟨2, by decide⟩ ⟨1, by decide⟩ = 1 ∧
    Tpfa.boundPressureCellMat gA pA ⟨0, by decide⟩ ⟨0, by decide⟩ = 0 ∧
    Tpfa.boundPressureFaceMat idQ gA pA false ⟨0, by decide⟩ ⟨0, by decide⟩ = 1 ∧
    Tpfa.boundPressureFaceMat idQ gA pA false ⟨2, by decide⟩ ⟨2, by decide⟩ =
      -(1 / Tpfa.t_face idQ gA pA false (2, 1, 1)) ∧
    ((Tpfa.boundPressureCellMat gA pA).mulVec ![5, 11] +
      (Tpfa.boundPressureFaceMat idQ gA pA false).mulVec ![7, 0, 13])
        ⟨0, by decide⟩ = (![7, 0, 13] : Fin 3 → ℚ) 0 :=
  ⟨((claim_C6 idQ gA rA none (by decide)).1).1,
   (claim_C6 idQ gA rA none (by decide)).2.1 pA ⟨2, by decide⟩ ⟨1, by decide⟩ 1
     (by decide) (by decide),
   (claim_C6 idQ gA rA none (by decide)).2.2.1 pA ⟨0, by decide⟩ ⟨0, by decide⟩
     (Or.inl (by decide)),
   (claim_C6 idQ gA rA none (by decide)).2.2.2.1 pA false ⟨0, by decide⟩
     (by decide) (by decide),
   (claim_C6 idQ gA rA none (by decide)).2.2.2.2.1 pA false ⟨2, by decide⟩ 1 1
     (by decide) (by decide),
   (claim_C6 idQ gA rA none (by decide)).2.2.2.2.2.2 pA false ![5, 11]
     ![7, 0, 13] ⟨0, by decide⟩ (by decide) (by decide)⟩

/-- Claim C8: re-using a prior discretization with a required key absent
fails (a `KeyError`, `none` here) rather than recomputing or defaulting:
`Tpfa.matrix_rhs` with `discretize=False` fails when `flux` or `bound_flux`
is absent, and `TpfaCoupling.matrix_rhs` fails when the higher-dimensional
record lacks `bound_pressure_cell`, `bound_pressure_face`, or `bound_flux`. -/
theorem claim_C8 (sqrtFn : ℚ → ℚ) (g : Grid) (r : FlowRecord) (gH gL : Grid)
    (dataEdge : EdgeData)
    (matrix : Blocks3 gH.numCells gL.numCells dataEdge.mortarGrid.numCells)
    (dataH dataL : FlowRecord) :
    ((r.flux? = none ∨ r.boundFlux? = none) →
      Tpfa.matrix_rhs sqrtFn g r false = none) ∧
    ((dataH.boundPressureCell? = none ∨ dataH.boundPressureFace? = none ∨
        dataH.boundFlux? = none) →
      TpfaCoupling.matrix_rhs gH gL dataEdge matrix dataH dataL = none) := by
  constructor
  · rintro (h | h)
    · simp [Tpfa.matrix_rhs, h]
    · cases hf : r.flux? with
      | none => simp [Tpfa.matrix_rhs, hf]
      | some v =>
        cases hm : v.asMat g.numFaces g.numCells with
        | none => simp [Tpfa.matrix_rhs, hf, hm]
        | some F => simp [Tpfa.matrix_rhs, hf, hm, h]
  · rintro (h | h | h)
    · simp [TpfaCoupling.matrix_rhs, h]
    · cases hc : dataH.boundPressureCell? with
      | none => simp [TpfaCoupling.matrix_rhs, hc]
      | some v =>
        cases hm : v.asMat gH.numFaces gH.numCells with
        | none => simp [TpfaCoupling.matrix_rhs, hc, hm]
        | some B => simp [TpfaCoupling.matrix_rhs, hc, hm, h]
    · cases hc : dataH.boundPressureCell? with
      | none => simp [TpfaCoupling.matrix_rhs, hc]
      | some v =>
        cases hm : v.asMat gH.numFaces gH.numCells with
        | none => simp [TpfaCoupling.matrix_rhs, hc, hm]
        | some B =>
          cases hc2 : dataH.boundPressureFace? with
          | none => simp [TpfaCoupling.matrix_rhs, hc, hm, hc2]
          | some v2 =>
            cases hm2 : v2.asMat gH.numFaces gH.numFaces with
            | none => simp [TpfaCoupling.matrix_rhs, hc, hm, hc2, hm2]
            | some B2 => simp [TpfaCoupling.matrix_rhs, hc, hm, hc2, hm2, h]

/-- Witness for C8: a fresh record with no stored discretization makes the
single-grid assembly fail, and a higher-dimensional record lacking the
boundary operators makes the mortar coupling fail. -/
theorem claim_C8_witness :
    Tpfa.matrix_rhs idQ gA rA false = none ∧
    TpfaCoupling.matrix_rhs gA gL1 edgeA (zeroBlocks3 2 1 1) rA rA = none :=
  ⟨(claim_C8 idQ gA rA gA gL1 edgeA (zeroBlocks3 2 1 1) rA rA).1 (Or.inl rfl),
   (claim_C8 idQ gA rA gA gL1 edgeA (zeroBlocks3 2 1 1) rA rA).2 (Or.inl rfl)⟩

/-- Counterexample to claim C1 as stated: on the square grid `gC1` (two faces,
two cells, so that the stated formula type-checks at all), the right-hand side
returned by `Tpfa.matrix_rhs` is not
`-(divergence operator)^T × boundary-flux operator × boundary values`:
the code applies the divergence operator itself, not its transpose. -/
theorem claim_C1_counterexample :
    (Tpfa.matrix_rhs idQ gC1 rC1 true).map (fun mr => mr.2) ≠
      some ((-(divergenceC1.transpose * boundFluxC1)).mulVec
        (fun f => pC1.bcVal f.val)) := by
  decide

/-- Claim C1, amended: for a grid of dimension ≥ 1, `Tpfa.matrix_rhs(g, data)`
returns the discretization matrix `divergence operator × flux operator`
(square of size `num_cells`) and the right-hand side
`-(divergence operator) × boundary-flux operator × boundary values`
(no transpose: the divergence operator, `cell_faces.T`, is applied as is). -/
theorem claim_C1 (sqrtFn : ℚ → ℚ) (g : Grid) (r : FlowRecord)
    (hdim : g.dim ≠ 0) :
    (Tpfa.matrix_rhs sqrtFn g r true =
      some (scalarDivergence g *
          Tpfa.fluxMat sqrtFn g r.param ((r.aav).getD false) none,
        Tpfa.rhs g (Tpfa.boundFluxMat sqrtFn g r.param ((r.aav).getD false))
          (fun f => r.param.bcVal f.val))) ∧
    (∀ (B : Matrix (Fin g.numFaces) (Fin g.numFaces) ℚ)
        (bc : Fin g.numFaces → ℚ),
      Tpfa.rhs g B bc = (-(scalarDivergence g * B)).mulVec bc) := by
  constructor
  · simp [Tpfa.matrix_rhs, Tpfa.discretize, hdim, DVal.asMat_self]
  · intro B bc
    rfl

/-- Witness for the amended C1 on the concrete grid `gA`. -/
theorem claim_C1_witness :
    Tpfa.matrix_rhs idQ gA rA true =
      some (scalarDivergence gA *
          Tpfa.fluxMat idQ gA rA.param ((rA.aav).getD false) none,
        Tpfa.rhs gA (Tpfa.boundFluxMat idQ gA rA.param ((rA.aav).getD false))
          (fun f => rA.param.bcVal f.val)) :=
  (claim_C1 idQ gA rA (by decide)).1

end Porepy
